import Mathlib

/-!
Shallow embedding of the ABSESpy modules (`mediator.py`, `nature.py`,
`human.py`, `random.py`) and proofs about the behaviour their
specification describes.  Machine integers of the source are modelled as
`Int`/`Nat`, Python exceptions as `Except String`, and stateful methods
as explicit state passing.
-/

namespace ABSES

/-! ## Mediator (`mediator.py`) -/

/-- Modelled from the spec: the lifecycle-state table `STATES` lives in
`states.py`, which is not part of the sources at hand.  The mediator's
own code fixes the codes and names used here: `_change_state(0)` is
commented `state -> new`, `transfer_parsing` sets `state = 1` and then
checks `_states_are("init")`, `_complete` sets `state = 3`, and the four
event handlers are `_new`, `_init`, `_ready`, `_complete`. -/
def STATES : List (Int × String) :=
  [(0, "new"), (1, "init"), (2, "ready"), (3, "complete")]

/-- Key lookup in the `STATES` dictionary (`STATES[code]`, `none` when
`code not in STATES`). -/
def statesLookup (code : Int) : Option String :=
  (STATES.find? (fun p => p.1 == code)).map Prod.snd

/-- Modelled from the spec: the `States` mixin (also from the missing
`states.py`) stores a numeric state code per component; its `state`
getter returns the code's name `STATES[code]`, which is what
`_states_are` compares against, and its setter stores the code assigned
by `user.state = state_code`. -/
def stateName (code : Int) : Option String :=
  statesLookup code

/-- The state codes of the mediator's three users `(model, human,
nature)` (`self.users`). -/
structure UsersState where
  model : Int
  human : Int
  nature : Int
deriving DecidableEq, Repr

/-- `MainMediator._states_are(state, how="all")`: every user's `state`
(the name string produced by the getter) equals the given name. -/
def states_are (st : UsersState) (s : String) : Bool :=
  (stateName st.model == some s) && (stateName st.human == some s)
    && (stateName st.nature == some s)

/-- `MainMediator._change_state(state_code)`: raise `ValueError` when
the code is not a key of `STATES` (before any assignment), otherwise set
every user's state to the code and return `_states_are(STATES[code])`.
The returned pair is (users' states after the call, outcome). -/
def change_state (st : UsersState) (code : Int) : UsersState × Except String Bool :=
  match statesLookup code with
  | none => (st, Except.error "Invalid state code")
  | some name =>
      let st' : UsersState := { model := code, human := code, nature := code }
      (st', Except.ok (states_are st' name))

/-- `MainMediator.__init__` ends with `self._change_state(0)`; the users'
states before that call are arbitrary (`st0`). -/
def mkMediator (st0 : UsersState) : UsersState × Except String Bool :=
  change_state st0 0

/-! ## Mediator request routing (`_check_sender` / `transfer_request`) -/

/-- Kind of a Python object that may be handed to the mediator as a
sender: the framework component classes, `Actor` instances, and anything
else. -/
inductive ObjKind where
  | model
  | human
  | nature
  | actor
  | other
deriving DecidableEq, Repr

/-- A Python object reference: its class kind plus an identity, so that
`sender is self.model` (object identity) is equality of references. -/
structure Obj where
  kind : ObjKind
  oid : Nat
deriving DecidableEq, Repr

/-- The references the mediator holds (`self.model`, `self.human`,
`self.nature`). -/
structure MediatorRefs where
  model : Obj
  human : Obj
  nature : Obj
deriving DecidableEq, Repr

/-- A well-formed mediator binds a model object, a human object and a
nature object (so none of them is an `Actor` and they are pairwise
distinct objects). -/
def MediatorRefs.WF (m : MediatorRefs) : Prop :=
  m.model.kind = ObjKind.model ∧ m.human.kind = ObjKind.human
    ∧ m.nature.kind = ObjKind.nature

/-- `MainMediator._check_sender(sender)`: classify the sender as one of
the string tags `"model"`, `"human"`, `"nature"`, `"agent"` (stored in
`self.sender`), or raise `TypeError`. -/
def check_sender (m : MediatorRefs) (sender : Obj) : Except String String :=
  if sender = m.model then Except.ok "model"
  else if sender = m.human then Except.ok "human"
  else if sender = m.nature then Except.ok "nature"
  else if sender.kind = ObjKind.actor then Except.ok "agent"
  else Except.error "Type of sender is invalid."

/-- `MainMediator.sender_matches(*args)`: the stored tag equals any of
the given patterns. -/
def sender_matches (tag : String) (args : List String) : Bool :=
  args.any (fun a => tag == a)

/-- `MainMediator.transfer_request(sender, attr)`.  `nature.get_patch`
lives outside these sources and is abstracted as the function
`get_patch`; `some v` is its result, `none` is Python's `None`. -/
def transfer_request {V : Type} (m : MediatorRefs) (get_patch : String → V)
    (sender : Obj) (attr : String) : Except String (Option V) :=
  match check_sender m sender with
  | Except.error e => Except.error e
  | Except.ok tag =>
      Except.ok
        (if sender_matches tag ["agent", "human"] then some (get_patch attr) else none)

/-! ## Theorems: C1 and C5 -/

/-- C1. `MainMediator` enforces one shared lifecycle state: for every
code in `STATES`, `_change_state` sets the state of model, human and
nature to that code and returns `True`; for every code not in `STATES`
it raises `ValueError` with no user's state modified; and immediately
after construction all three components are in state 0 (`"new"`). -/
theorem C1_mediator_shared_state (st : UsersState) (code : Int) :
    (∀ nm, statesLookup code = some nm →
      change_state st code =
        ({ model := code, human := code, nature := code }, Except.ok true)) ∧
    (statesLookup code = none →
      change_state st code = (st, Except.error "Invalid state code")) ∧
    ((mkMediator st).1 = { model := 0, human := 0, nature := 0 } ∧
      stateName 0 = some "new") := by
  refine ⟨?_, ?_, ?_⟩
  · intro nm h
    simp [change_state, h, states_are, stateName]
  · intro h
    simp [change_state, h]
  · constructor
    · have h0 : statesLookup 0 = some "new" := by decide
      simp [mkMediator, change_state, h0]
    · decide

/-- Closed instance of C1 at concrete inputs. -/
theorem C1_mediator_shared_state_witness :
    change_state { model := 3, human := 1, nature := 2 } 2 =
        ({ model := 2, human := 2, nature := 2 }, Except.ok true) ∧
      change_state { model := 3, human := 1, nature := 2 } 7 =
        ({ model := 3, human := 1, nature := 2 }, Except.error "Invalid state code") := by
  refine ⟨?_, ?_⟩
  · exact (C1_mediator_shared_state { model := 3, human := 1, nature := 2 } 2).1
      "ready" (by decide)
  · exact (C1_mediator_shared_state { model := 3, human := 1, nature := 2 } 7).2.1
      (by decide)

/-- C5. `transfer_request` raises `TypeError` exactly when the sender is
neither the bound model, the bound human, the bound nature, nor an
`Actor`; an `Actor` or the bound human gets `nature.get_patch(attr)`,
and the bound model or the bound nature gets `None`. -/
theorem C5_transfer_request_routing {V : Type} (m : MediatorRefs)
    (get_patch : String → V) (sender : Obj) (attr : String) (hwf : m.WF) :
    ((∃ e, transfer_request m get_patch sender attr = Except.error e) ↔
      (sender ≠ m.model ∧ sender ≠ m.human ∧ sender ≠ m.nature ∧
        sender.kind ≠ ObjKind.actor)) ∧
    (sender.kind = ObjKind.actor ∨ sender = m.human →
      transfer_request m get_patch sender attr = Except.ok (some (get_patch attr))) ∧
    (sender = m.model ∨ sender = m.nature →
      transfer_request m get_patch sender attr = Except.ok none) := by
  obtain ⟨hm, hh, hn⟩ := hwf
  have hmh : m.model ≠ m.human := by
    intro h; rw [h, hh] at hm; exact ObjKind.noConfusion hm
  have hmn : m.model ≠ m.nature := by
    intro h; rw [h, hn] at hm; exact ObjKind.noConfusion hm
  have hhn : m.human ≠ m.nature := by
    intro h; rw [h, hn] at hh; exact ObjKind.noConfusion hh
  refine ⟨?_, ?_, ?_⟩
  · constructor
    · rintro ⟨e, he⟩
      by_cases h1 : sender = m.model
      · simp [transfer_request, check_sender, h1] at he
      · by_cases h2 : sender = m.human
        · simp [transfer_request, check_sender, h2, hmh.symm] at he
        · by_cases h3 : sender = m.nature
          · simp [transfer_request, check_sender, h3, hmn.symm, hhn.symm] at he
          · by_cases h4 : sender.kind = ObjKind.actor
            · simp [transfer_request, check_sender, h1, h2, h3, h4] at he
            · exact ⟨h1, h2, h3, h4⟩
    · rintro ⟨h1, h2, h3, h4⟩
      exact ⟨"Type of sender is invalid.",
        by simp [transfer_request, check_sender, h1, h2, h3, h4]⟩
  · rintro (hact | hhum)
    · have h1 : sender ≠ m.model := by
        intro h; rw [h, hm] at hact; exact ObjKind.noConfusion hact
      have h2 : sender ≠ m.human := by
        intro h; rw [h, hh] at hact; exact ObjKind.noConfusion hact
      have h3 : sender ≠ m.nature := by
        intro h; rw [h, hn] at hact; exact ObjKind.noConfusion hact
      simp [transfer_request, check_sender, h1, h2, h3, hact, sender_matches]
    · simp [transfer_request, check_sender, hhum, hmh.symm, sender_matches]
  · rintro (h0 | h3)
    · simp [transfer_request, check_sender, h0, sender_matches]
    · simp [transfer_request, check_sender, h3, hmn.symm, hhn.symm, sender_matches]

/-- Closed instance of C5 at concrete inputs. -/
theorem C5_transfer_request_routing_witness :
    transfer_request
        { model := ⟨ObjKind.model, 0⟩, human := ⟨ObjKind.human, 1⟩,
          nature := ⟨ObjKind.nature, 2⟩ }
        (fun _ => (42 : Nat)) ⟨ObjKind.actor, 9⟩ "elevation" =
      Except.ok (some 42) :=
  (C5_transfer_request_routing
      { model := ⟨ObjKind.model, 0⟩, human := ⟨ObjKind.human, 1⟩,
        nature := ⟨ObjKind.nature, 2⟩ }
      (fun _ => (42 : Nat)) ⟨ObjKind.actor, 9⟩ "elevation"
      ⟨rfl, rfl, rfl⟩).2.1 (Or.inl rfl)

/-! ## PatchModule rasters (`nature.py`) -/

/-- The shape of a 3-d numpy array (`data.shape`). -/
structure Shape3 where
  bands : Nat
  height : Nat
  width : Nat
deriving DecidableEq, Repr

/-- A 3-d numpy array of values of type `V`: a shape plus the entries,
read as `data[b, i, j]` (entries outside the shape are irrelevant). -/
structure NpArr (V : Type) where
  shape : Shape3
  data : Nat → Nat → Nat → V

/-- Numpy array equality: same shape, and the same entry at every index
inside the shape. -/
def NpArr.EqArr {V : Type} (a b : NpArr V) : Prop :=
  a.shape = b.shape ∧
    ∀ bd i j, bd < a.shape.bands → i < a.shape.height → j < a.shape.width →
      a.data bd i j = b.data bd i j

/-- The attribute-relevant state of a `PatchModule` layer of a given
`width` and `height`.  `cellAttrs x y` is the instance-attribute
dictionary of the cell `self.cells[x][y]`; `layerAttrs` is the layer's
`self._attributes` set (kept as a duplicate-free insertion list);
`dynamicVars` is `self._dynamic_variables` and `cellProperties` is
`self.cell_cls.__attribute_properties__()` (both defined outside these
sources and treated as opaque name sets); `autoName` is the name
`f"attribute_\x7blen(self.cell_cls.__dict__)\x7d"` generated when
`apply_raster` is called with `attr_name=None`. -/
structure PatchModule (V : Type) where
  width : Nat
  height : Nat
  cellAttrs : Nat → Nat → String → Option V
  layerAttrs : List String
  dynamicVars : List String
  cellProperties : List String
  autoName : String

/-- `PatchModule.attributes`: the union `self._attributes | self.cell_properties`
(as a membership list). -/
def attributes {V : Type} (m : PatchModule V) : List String :=
  m.layerAttrs ++ m.cellProperties

/-- `PatchModule.shape3d`: `(1, self.height, self.width)`. -/
def shape3d {V : Type} (m : PatchModule V) : Shape3 :=
  { bands := 1, height := m.height, width := m.width }

/-- Python `set.add`: insert a name if it is not already present. -/
def addAttr (l : List String) (a : String) : List String :=
  if a ∈ l then l else l ++ [a]

/-- `PatchModule.apply_raster(data, attr_name)`: raise `ValueError` when
`data.shape != (1, self.height, self.width)` (before touching any state),
otherwise add the (possibly generated) name to `self._attributes` and run
`for x in range(width): for y in range(height):
setattr(self.cells[x][y], attr_name, data[0, height - y - 1, x])` —
each in-range cell is assigned exactly once, which the functional update
below expresses. -/
def apply_raster {V : Type} (m : PatchModule V) (d : NpArr V)
    (attr_name : Option String) : PatchModule V × Except String Unit :=
  if d.shape ≠ shape3d m then
    (m, Except.error "Data shape does not match raster shape.")
  else
    let a := attr_name.getD m.autoName
    ({ m with
        layerAttrs := addAttr m.layerAttrs a,
        cellAttrs := fun x y n =>
          if x < m.width ∧ y < m.height ∧ n = a then
            some (d.data 0 (m.height - y - 1) x)
          else m.cellAttrs x y n },
      Except.ok ())

/-- Every cell of the layer carries a stored value for attribute `a`
(otherwise the `getattr` in `get_raster`'s loop raises
`AttributeError`). -/
def allCellsHave {V : Type} (m : PatchModule V) (a : String) : Bool :=
  (List.range m.width).all fun x =>
    (List.range m.height).all fun y => (m.cellAttrs x y a).isSome

/-- The single-band array `get_raster` fills for attribute `a`:
`data[0, height - y - 1, x] = getattr(self.cells[x][y], a)`, i.e. entry
`(0, i, j)` reads cell `(j, height - i - 1)`. -/
def readBand {V : Type} [Inhabited V] (m : PatchModule V) (a : String) : NpArr V :=
  { shape := shape3d m,
    data := fun b i j =>
      if b = 0 ∧ i < m.height ∧ j < m.width then
        (m.cellAttrs j (m.height - i - 1) a).getD default
      else default }

/-- `PatchModule.get_raster(attr_name)` for an explicit attribute name:
a dynamic variable is recomputed by `self.dynamic_var` (which delegates
to the `Module` base class outside these sources, abstracted by the
`dynamicEval` argument); a name not in `self.attributes` raises
`ValueError`; otherwise the cells are read back band-wise.  Reads of
cell-class property attributes (external getters) are not modelled, so
a cell without a stored value makes the read raise. -/
def get_raster {V : Type} [Inhabited V] (m : PatchModule V)
    (dynamicEval : String → NpArr V) (a : String) : Except String (NpArr V) :=
  if a ∈ m.dynamicVars then Except.ok (dynamicEval a)
  else if a ∉ attributes m then Except.error "Attribute does not exist."
  else if allCellsHave m a then Except.ok (readBand m a)
  else Except.error "AttributeError"

/-- A concrete 2×3 demo layer with no attributes, used by witnesses. -/
def demoLayer : PatchModule Nat :=
  { width := 3, height := 2, cellAttrs := fun _ _ _ => none,
    layerAttrs := [], dynamicVars := [], cellProperties := [],
    autoName := "attribute_7" }

/-- A concrete array of shape `(1, 2, 3)`, used by witnesses. -/
def demoArr : NpArr Nat :=
  { shape := { bands := 1, height := 2, width := 3 },
    data := fun b i j => b + 10 * i + 100 * j }

/-- A concrete array of shape `(1, 2, 2)` (wrong for `demoLayer`). -/
def demoArrBad : NpArr Nat :=
  { shape := { bands := 1, height := 2, width := 2 },
    data := fun _ _ _ => 5 }

/-- A trivial stand-in for the external dynamic-variable evaluator. -/
def demoDyn : String → NpArr Nat :=
  fun _ => { shape := ⟨0, 0, 0⟩, data := fun _ _ _ => 0 }

/-! ## Theorems: C2 and C8 -/

/-- C2. Raster round trip: applying an array of shape
`(1, height, width)` under a fresh (non-dynamic, non-property) name and
reading it back returns an array equal to the input — the storage map
`cells[x][y] <- d[0, h-y-1, x]` and the read-back map
`d'[0, h-y-1, x] <- cells[x][y]` are mutually inverse. -/
theorem C2_raster_round_trip {V : Type} [Inhabited V] (m : PatchModule V)
    (dynamicEval : String → NpArr V) (d : NpArr V) (a : String)
    (hshape : d.shape = shape3d m)
    (hdyn : a ∉ m.dynamicVars) (hprop : a ∉ m.cellProperties) :
    ∃ m', apply_raster m d (some a) = (m', Except.ok ()) ∧
      ∃ d', get_raster m' dynamicEval a = Except.ok d' ∧ d'.EqArr d := by
  set m' : PatchModule V :=
    { m with
        layerAttrs := addAttr m.layerAttrs a,
        cellAttrs := fun x y n =>
          if x < m.width ∧ y < m.height ∧ n = a then
            some (d.data 0 (m.height - y - 1) x)
          else m.cellAttrs x y n } with hm'
  refine ⟨m', by simp [apply_raster, hshape, hm'], ?_⟩
  have hmem : a ∈ attributes m' := by
    simp only [attributes, hm', List.mem_append]
    left
    simp [addAttr]
    by_cases h : a ∈ m.layerAttrs <;> simp [h]
  have hall : allCellsHave m' a = true := by
    simp only [allCellsHave, List.all_eq_true, List.mem_range]
    intro x hx y hy
    simp [hm', hx, hy]
  refine ⟨readBand m' a, ?_, ?_, ?_⟩
  · rw [get_raster, if_neg (by simp [hm']; exact hdyn), if_neg (by simp [hmem]),
      if_pos hall]
  · simp [readBand, hm', shape3d, hshape]
  · intro b i j hb hi hj
    simp only [readBand, hm', shape3d] at hb hi hj ⊢
    have hb0 : b = 0 := by omega
    have h1 : m.height - i - 1 < m.height := by omega
    have h2 : m.height - (m.height - i - 1) - 1 = i := by omega
    subst hb0
    simp only [hi, hj, and_true, true_and, if_pos, h1, h2]
    simp [hj, hi, h1, h2]

/-- Closed instance of C2 at a concrete 2×3 layer. -/
theorem C2_raster_round_trip_witness :
    ∃ m', apply_raster demoLayer demoArr (some "elev") = (m', Except.ok ()) ∧
      ∃ d', get_raster m' demoDyn "elev" = Except.ok d' ∧ d'.EqArr demoArr :=
  C2_raster_round_trip demoLayer demoDyn demoArr "elev" rfl (by simp [demoLayer])
    (by simp [demoLayer])

/-- C8. `apply_raster` raises `ValueError` exactly when the incoming
shape differs from `(1, height, width)`, and in that case neither any
cell attribute nor the layer's attribute set is touched (the whole
module state is returned unchanged). -/
theorem C8_apply_raster_precondition {V : Type} (m : PatchModule V)
    (d : NpArr V) (attr_name : Option String) :
    (d.shape ≠ shape3d m →
      apply_raster m d attr_name =
        (m, Except.error "Data shape does not match raster shape.")) ∧
    (d.shape = shape3d m →
      ∃ m', apply_raster m d attr_name = (m', Except.ok ())) := by
  constructor
  · intro h
    rw [apply_raster, if_pos h]
  · intro h
    exact ⟨_, by rw [apply_raster, if_neg (by simp [h])]⟩

/-- Closed instance of C8: a `(1, 2, 2)` array is rejected by the 2×3
demo layer and the state comes back unchanged; the `(1, 2, 3)` array is
accepted. -/
theorem C8_apply_raster_precondition_witness :
    apply_raster demoLayer demoArrBad none =
        (demoLayer, Except.error "Data shape does not match raster shape.") ∧
      ∃ m', apply_raster demoLayer demoArr none = (m', Except.ok ()) := by
  constructor
  · exact (C8_apply_raster_precondition demoLayer demoArrBad none).1
      (by simp [demoArrBad, demoLayer, shape3d])
  · exact (C8_apply_raster_precondition demoLayer demoArr none).2 rfl

/-! ## PatchModule grid construction (C4) -/

/-- The data `PatchModule.__init__` hands to each created `PatchCell`:
its `pos` and its `indices`. -/
structure PatchCell where
  pos : Nat × Nat
  indices : Nat × Nat
deriving DecidableEq, Repr

/-- The `self._cells` built by `PatchModule.__init__`:
`for x in range(width)` append the column
`[cell_cls(layer=self, pos=(x, y), indices=(height - y - 1, x))
for y in range(height)]`. -/
def mkCells (width height : Nat) : List (List PatchCell) :=
  (List.range width).map fun x =>
    (List.range height).map fun y =>
      { pos := (x, y), indices := (height - y - 1, x) }

/-- `PatchModule.__getitem__` on a pair of ints: `self.cells[x][y]`
(`none` models Python's `IndexError` out of range). -/
def getItemXY (cells : List (List PatchCell)) (x y : Nat) : Option PatchCell :=
  (cells[x]?).bind fun col => col[y]?

/-- `PatchModule.array_cells` is `np.flipud(np.array(self.cells).T)`.
`np.array(self.cells)` is the `(width, height)` object array with entry
`(x, y) = cells[x][y]`; `.T` swaps the axes and `np.flipud` reverses the
first axis, so entry `(i, j)` of the result is
`cells[j][height - 1 - i]`. -/
def array_cells (height : Nat) (cells : List (List PatchCell)) (i j : Nat) :
    Option PatchCell :=
  getItemXY cells j (height - 1 - i)

/-! ## Theorem: C4 -/

/-- C4. Grid coherence: a layer built with width `w` and height `h`
holds exactly `w * h` cells; for `x < w` and `y < h`, `layer[x, y]` is
the cell created at pos `(x, y)` (and no other index holds a cell with
that pos), that cell's `indices` equal `(h - 1 - y, x)`, and
`array_cells` at those indices yields the same cell. -/
theorem C4_grid_coherence (w h x y : Nat) (hx : x < w) (hy : y < h) :
    ((mkCells w h).map List.length).sum = w * h ∧
    getItemXY (mkCells w h) x y =
      some { pos := (x, y), indices := (h - 1 - y, x) } ∧
    (∀ x' y' c, getItemXY (mkCells w h) x' y' = some c →
      c.pos = (x, y) → x' = x ∧ y' = y) ∧
    array_cells h (mkCells w h) (h - 1 - y) x = getItemXY (mkCells w h) x y := by
  have hget : ∀ a b : Nat, a < w → b < h →
      getItemXY (mkCells w h) a b =
        some { pos := (a, b), indices := (h - 1 - b, a) } := by
    intro a b ha hb
    simp [getItemXY, mkCells, List.getElem?_map, List.getElem?_range, ha, hb]
    omega
  refine ⟨?_, hget x y hx hy, ?_, ?_⟩
  · simp [mkCells, List.map_map, Function.comp_def]
  · intro x' y' c hc hpos
    have hx' : x' < w := by
      by_contra hge
      have : (mkCells w h)[x']? = none := by
        simp [mkCells, List.getElem?_map, List.getElem?_eq_none,
          List.length_range, Nat.le_of_not_lt hge]
      simp [getItemXY, this] at hc
    have hy' : y' < h := by
      by_contra hge
      rw [getItemXY] at hc
      simp only [mkCells, List.getElem?_map, List.getElem?_range, hx',
        Option.bind_some, Option.bind] at hc
      simp [List.getElem?_map, List.getElem?_eq_none, List.length_range,
        Nat.le_of_not_lt hge] at hc
    rw [hget x' y' hx' hy'] at hc
    have hpc := congrArg PatchCell.pos (Option.some.inj hc)
    simp only at hpc
    have h2 : (x', y') = (x, y) := hpc.trans hpos
    simp only [Prod.mk.injEq] at h2
    exact h2
  · have h1 : h - 1 - (h - 1 - y) = y := by omega
    rw [array_cells, h1]

/-- Closed instance of C4 on a 3×2 grid at `(x, y) = (2, 0)`. -/
theorem C4_grid_coherence_witness :
    ((mkCells 3 2).map List.length).sum = 3 * 2 ∧
    getItemXY (mkCells 3 2) 2 0 =
      some { pos := (2, 0), indices := (1, 2) } ∧
    (∀ x' y' c, getItemXY (mkCells 3 2) x' y' = some c →
      c.pos = (2, 0) → x' = 2 ∧ y' = 0) ∧
    array_cells 2 (mkCells 3 2) 1 2 = getItemXY (mkCells 3 2) 2 0 :=
  C4_grid_coherence 3 2 2 0 (by decide) (by decide)

/-! ## PatchModule neighbourhoods (C3) -/

/-- Python `range(-radius, radius + 1)` as a list of `Int`. -/
def intRange (radius : Nat) : List Int :=
  (List.range (2 * radius + 1)).map fun i : Nat => (i : Int) - (radius : Int)

theorem mem_intRange {radius : Nat} {z : Int} :
    z ∈ intRange radius ↔ -(radius : Int) ≤ z ∧ z ≤ (radius : Int) := by
  rw [intRange, List.mem_map]
  constructor
  · rintro ⟨i, hi, hzi⟩
    rw [List.mem_range] at hi
    omega
  · intro hz
    exact ⟨(z + radius).toNat, List.mem_range.mpr (by omega), by omega⟩

/-- `RasterBase.out_of_bounds(pos)` of the external `mesa` grid base
class the layer inherits: `x < 0 or x >= self.width or y < 0 or
y >= self.height`. -/
def out_of_bounds (width height : Nat) (c : Int × Int) : Bool :=
  decide (c.1 < 0 ∨ (width : Int) ≤ c.1 ∨ c.2 < 0 ∨ (height : Int) ≤ c.2)

/-- Lexicographic order on coordinate tuples: how Python's `sorted`
compares `(x, y)` pairs. -/
def lexLe (a b : Int × Int) : Prop :=
  a.1 < b.1 ∨ (a.1 = b.1 ∧ a.2 ≤ b.2)

instance : DecidableRel lexLe := fun a b => by
  unfold lexLe; infer_instance

instance : IsTotal (Int × Int) lexLe :=
  ⟨by intro a b; unfold lexLe; omega⟩

instance : IsTrans (Int × Int) lexLe :=
  ⟨by intro a b c; unfold lexLe; omega⟩

/-- `PatchModule.get_neighborhood(pos, moore, include_center, radius)`:
iterate `dy, dx` over `itertools.product(range(-radius, radius + 1),
range(-radius, radius + 1))`, skip the center unless `include_center`,
skip coordinates beyond manhattan distance unless `moore`, skip
out-of-bounds coordinates, collect the rest into a set and return it
`sorted` (here: sort of the deduplicated candidate list). -/
def get_neighborhood (width height : Nat) (pos : Int × Int) (moore : Bool)
    (include_center : Bool) (radius : Nat) : List (Int × Int) :=
  let cands := (intRange radius).flatMap fun dy =>
    (intRange radius).filterMap fun dx =>
      if dx = 0 ∧ dy = 0 ∧ include_center = false then none
      else if moore = false ∧ (radius : Int) < |dx| + |dy| then none
      else if out_of_bounds width height (pos.1 + dx, pos.2 + dy) then none
      else some (pos.1 + dx, pos.2 + dy)
  List.insertionSort lexLe cands.dedup

/-! ## Theorem: C3 -/

/-- C3. Neighborhood query semantics: for an in-bounds `pos` and radius
`radius ≥ 1`, the result contains exactly the in-bounds coordinates
`(x + dx, y + dy)` with `|dx| ≤ radius` and `|dy| ≤ radius` (and
additionally `|dx| + |dy| ≤ radius` when not `moore`), excluding `pos`
itself unless `include_center`; the list is sorted and duplicate-free. -/
theorem C3_get_neighborhood (width height : Nat) (pos : Int × Int)
    (moore include_center : Bool) (radius : Nat)
    (hpos : out_of_bounds width height pos = false) (hr : 1 ≤ radius) :
    (∀ c, c ∈ get_neighborhood width height pos moore include_center radius ↔
      (out_of_bounds width height c = false ∧
        |c.1 - pos.1| ≤ (radius : Int) ∧ |c.2 - pos.2| ≤ (radius : Int) ∧
        (moore = true ∨ |c.1 - pos.1| + |c.2 - pos.2| ≤ (radius : Int)) ∧
        (c ≠ pos ∨ include_center = true))) ∧
    List.Sorted lexLe (get_neighborhood width height pos moore include_center radius) ∧
    (get_neighborhood width height pos moore include_center radius).Nodup := by
  refine ⟨?_, List.sorted_insertionSort lexLe _,
    (List.perm_insertionSort lexLe _).nodup_iff.mpr (List.nodup_dedup _)⟩
  intro c
  simp only [get_neighborhood]
  rw [List.mem_insertionSort, List.mem_dedup]
  simp only [List.mem_flatMap, List.mem_filterMap]
  constructor
  · rintro ⟨dy, hdy, dx, hdx, hf⟩
    rw [mem_intRange] at hdy hdx
    by_cases h1 : dx = 0 ∧ dy = 0 ∧ include_center = false
    · rw [if_pos h1] at hf
      exact absurd hf (by simp)
    rw [if_neg h1] at hf
    by_cases h2 : moore = false ∧ (radius : Int) < |dx| + |dy|
    · rw [if_pos h2] at hf
      exact absurd hf (by simp)
    rw [if_neg h2] at hf
    by_cases h3 : out_of_bounds width height (pos.1 + dx, pos.2 + dy) = true
    · rw [if_pos h3] at hf
      exact absurd hf (by simp)
    rw [if_neg h3] at hf
    have hc := Option.some.inj hf
    subst hc
    refine ⟨by simpa using h3, ?_, ?_, ?_, ?_⟩
    · have e : (pos.1 + dx, pos.2 + dy).1 - pos.1 = dx := by simp
      rw [e, Int.abs_eq_natAbs]
      omega
    · have e : (pos.1 + dx, pos.2 + dy).2 - pos.2 = dy := by simp
      rw [e, Int.abs_eq_natAbs]
      omega
    · rcases Bool.eq_false_or_eq_true moore with hm | hm
      · exact Or.inl hm
      · right
        have hsum : ¬((radius : Int) < |dx| + |dy|) := fun hs => h2 ⟨hm, hs⟩
        have e1 : (pos.1 + dx, pos.2 + dy).1 - pos.1 = dx := by simp
        have e2 : (pos.1 + dx, pos.2 + dy).2 - pos.2 = dy := by simp
        rw [e1, e2]
        rw [Int.abs_eq_natAbs, Int.abs_eq_natAbs] at hsum ⊢
        omega
    · rcases Bool.eq_false_or_eq_true include_center with hic | hic
      · exact Or.inr hic
      · left
        intro hceq
        have f1 : pos.1 + dx = pos.1 := congrArg Prod.fst hceq
        have f2 : pos.2 + dy = pos.2 := congrArg Prod.snd hceq
        exact h1 ⟨by omega, by omega, hic⟩
  · rintro ⟨hoob, habs1, habs2, hman, hcen⟩
    rw [Int.abs_eq_natAbs] at habs1
    rw [Int.abs_eq_natAbs] at habs2
    refine ⟨c.2 - pos.2, mem_intRange.mpr (by omega), c.1 - pos.1,
      mem_intRange.mpr (by omega), ?_⟩
    have hc1 : pos.1 + (c.1 - pos.1) = c.1 := by omega
    have hc2 : pos.2 + (c.2 - pos.2) = c.2 := by omega
    have hc : (pos.1 + (c.1 - pos.1), pos.2 + (c.2 - pos.2)) = c := by
      rw [hc1, hc2]
    rw [if_neg ?hcen, if_neg ?hman, if_neg ?hoob]
    case hcen =>
      rintro ⟨e1, e2, e3⟩
      rcases hcen with hne | hic
      · exact hne (by rw [← hc, e1, e2]; simp)
      · rw [hic] at e3
        cases e3
    case hman =>
      rintro ⟨e1, e2⟩
      rcases hman with hm | hsum
      · rw [hm] at e1
        cases e1
      · rw [Int.abs_eq_natAbs, Int.abs_eq_natAbs] at e2 hsum
        omega
    case hoob =>
      rw [hc, hoob]
      simp
    rw [hc]

/-- Closed instance of C3 on a 5×4 grid at `pos = (1, 1)`, Moore
neighbourhood of radius 1 without the center. -/
theorem C3_get_neighborhood_witness :
    ((0, 0) ∈ get_neighborhood 5 4 (1, 1) true false 1 ↔
      (out_of_bounds 5 4 (0, 0) = false ∧
        |(0 : Int) - 1| ≤ (1 : Int) ∧ |(0 : Int) - 1| ≤ (1 : Int) ∧
        (true = true ∨ |(0 : Int) - 1| + |(0 : Int) - 1| ≤ (1 : Int)) ∧
        (((0 : Int), (0 : Int)) ≠ ((1 : Int), (1 : Int)) ∨ false = true))) ∧
    List.Sorted lexLe (get_neighborhood 5 4 (1, 1) true false 1) ∧
    (get_neighborhood 5 4 (1, 1) true false 1).Nodup := by
  have h := C3_get_neighborhood 5 4 (1, 1) true false 1 (by decide) (by decide)
  exact ⟨h.1 (0, 0), h.2.1, h.2.2⟩

/-! ## HumanModule (`human.py`) -/

/-- The state of a `HumanModule` relevant to its saved selections:
`actors` is the current content of the module's agent container
(`self.actors`), and `collections` is the `self._collections` dict
mapping a saved name to its `Selection` query. `A` is the actor type
and `S` the selection type (both opaque here). -/
structure HumanModule (A S : Type) where
  actors : List A
  collections : List (String × S)

/-- Dictionary read: `self._collections[name]` if present. -/
def getCollection {A S : Type} (m : HumanModule A S) (name : String) :
    Option S :=
  (m.collections.find? fun p => p.1 == name).map Prod.snd

/-- Dictionary write `self._collections[name] = selection`: replace an
existing binding or append a new one. -/
def setCollection {S : Type} (c : List (String × S)) (name : String)
    (sel : S) : List (String × S) :=
  if c.any (fun p => p.1 == name) then
    c.map fun p => if p.1 == name then (name, sel) else p
  else c ++ [(name, sel)]

/-- `HumanModule.define(name, selection)`: evaluate
`self.actors.select(selection)` (the `ActorsList.select` query evaluator
lives outside these sources and is abstracted as `sel_eval`), store the
selection under the name, and return the selected list. -/
def define {A S : Type} (sel_eval : List A → S → List A)
    (m : HumanModule A S) (name : String) (selection : S) :
    HumanModule A S × List A :=
  ({ m with collections := setCollection m.collections name selection },
    sel_eval m.actors selection)

/-- `HumanModule.__getattr__(name)`: a name whose first character is an
underscore (`name[0] == "_"`; attribute names are nonempty identifiers)
or that has no saved selection falls through to
`super().__getattr__(name)` (modelled as `none`); otherwise the saved
selection is re-evaluated against the module's current actors. -/
def hm_getattr {A S : Type} (sel_eval : List A → S → List A)
    (m : HumanModule A S) (name : String) : Option (List A) :=
  if name.front = '_' then none
  else
    match getCollection m name with
    | none => none
    | some selection => some (sel_eval m.actors selection)

/-- The interaction trace events of an `arena` call: the group the
trigger runs on, the interaction name, and the group passed as its
argument. -/
structure TrigEvent (G : Type) where
  target : G
  interaction : String
  arg : G
deriving DecidableEq, Repr

/-- Modelled from the spec: `ActorsList.trigger` (from the missing
`sequences.py`) fires the named interaction on a group with the given
argument; here it appends the corresponding event to an interaction
trace. -/
def trigger {G : Type} (trace : List (TrigEvent G)) (target : G)
    (interaction : String) (arg : G) : List (TrigEvent G) :=
  trace ++ [{ target := target, interaction := interaction, arg := arg }]

/-- `HumanModule.arena(actor_1, actor_2, interaction)`:
`actor_1.trigger(interaction, actor_2)` followed by
`actor_2.trigger(interaction, actor_1)`. -/
def arena {G : Type} (trace : List (TrigEvent G)) (actor_1 actor_2 : G)
    (interaction : String) : List (TrigEvent G) :=
  trigger (trigger trace actor_1 interaction actor_2) actor_2 interaction actor_1

/-! ## Theorems: C6 and C10 -/

/-- C6. Saved selections: for a name not beginning with an underscore,
`define(name, sel)` stores `sel` under the name and returns
`actors.select(sel)`; afterwards, reading the attribute re-evaluates
`actors.select(sel)` over the module's current actors — the saved query,
not its result, is persisted. -/
theorem C6_saved_selections {A S : Type} (sel_eval : List A → S → List A)
    (m : HumanModule A S) (name : String) (sel : S)
    (hname : name.front ≠ '_') :
    (define sel_eval m name sel).2 = sel_eval m.actors sel ∧
    getCollection (define sel_eval m name sel).1 name = some sel ∧
    (∀ newActors : List A,
      hm_getattr sel_eval
          { (define sel_eval m name sel).1 with actors := newActors } name =
        some (sel_eval newActors sel)) := by
  have hstore : ∀ c : List (String × S),
      ((setCollection c name sel).find? fun p => p.1 == name) =
        some (name, sel) := by
    intro c
    induction c with
    | nil => simp [setCollection, List.find?]
    | cons hd tl ih =>
        by_cases hhd : hd.1 = name
        · simp [setCollection, hhd, List.find?]
        · have hne : (hd.1 == name) = false := beq_false_of_ne hhd
          by_cases htl : tl.any (fun p => p.1 == name)
          · simp only [setCollection, List.any_cons, hne, Bool.false_or, htl,
              if_true, List.map_cons, List.find?, hne, if_false]
            have ih' := ih
            simp only [setCollection, htl, if_true] at ih'
            simpa [List.find?, hne] using ih'
          · simp only [setCollection, List.any_cons, hne, Bool.false_or, htl,
              if_false, List.cons_append, List.find?, hne]
            have ih' := ih
            simp only [setCollection, htl, if_false] at ih'
            simpa [List.find?, hne] using ih'
  refine ⟨rfl, ?_, ?_⟩
  · simp [getCollection, define, hstore]
  · intro newActors
    rw [hm_getattr, if_neg hname]
    have : getCollection
        { (define sel_eval m name sel).1 with actors := newActors } name =
        some sel := by
      simp [getCollection, define, hstore]
    rw [this]

/-- Closed instance of C6 with actors `[1, 2, 3]` and the query "keep
even actors". -/
theorem C6_saved_selections_witness :
    (define (fun l p => l.filter p) { actors := [1, 2, 3], collections := [] }
        "evens" (fun n : Nat => n % 2 == 0)).2 = [2] ∧
    (getCollection
        (define (fun l p => l.filter p)
          { actors := [1, 2, 3], collections := [] } "evens"
          (fun n : Nat => n % 2 == 0)).1 "evens").isSome = true ∧
    hm_getattr (fun l p => l.filter p)
        { (define (fun l p => l.filter p)
            { actors := [1, 2, 3], collections := [] } "evens"
            (fun n : Nat => n % 2 == 0)).1 with actors := [4, 5, 6] }
        "evens" = some [4, 6] := by
  have h := C6_saved_selections (fun (l : List Nat) (p : Nat → Bool) => l.filter p)
    { actors := [1, 2, 3], collections := [] } "evens"
    (fun n : Nat => n % 2 == 0) (by decide)
  refine ⟨?_, ?_, ?_⟩
  · rw [h.1]
    rfl
  · rw [h.2.1]
    rfl
  · rw [h.2.2 [4, 5, 6]]
    rfl

/-- C10. `arena(a1, a2, f)` triggers `f` exactly once on each group with
the other group as argument, first `a1` toward `a2`, then `a2` toward
`a1`: the interaction trace is extended by exactly those two events in
that order. -/
theorem C10_arena_order {G : Type} (trace : List (TrigEvent G))
    (a1 a2 : G) (f : String) :
    arena trace a1 a2 f =
      trace ++ [{ target := a1, interaction := f, arg := a2 },
        { target := a2, interaction := f, arg := a1 }] := by
  simp [arena, trigger]

/-! ## ListRandom (`random.py`) -/

/-- Python `size & ~replace` from the guard of `ListRandom.choice`:
bools are ints (`False = 0`, `True = 1`), so `~False = -1` (an identity
bit mask: `size & -1 = size`) and `~True = -2` (clears the lowest bit:
`size & -2 = size - size % 2`). -/
def sizeAndNotReplace (size : Nat) (replace : Bool) : Nat :=
  if replace then size - size % 2 else size

/-- What `ListRandom.choice` returns: the single actor `chosen[0]`
(when `size == 1 and not as_list`), or an `ActorsList` of the chosen
actors. -/
inductive ChoiceResult (A : Type) where
  | single (a : A)
  | many (l : List A)
deriving DecidableEq, Repr

/-- `ListRandom.choice(size=size, prob=prob, replace=replace,
as_list=as_list)`: raise `ABSESpyError` when
`not instances_num or (instances_num < size & ~replace)`; otherwise draw
with `self.generator.choice(self.actors, size=size, replace=replace,
p=prob)`.  The numpy generator (and the `clean_p` normalisation `prob`
is piped through) is external; its outcome is abstracted as the list
`chosen`, which numpy guarantees has `size` entries drawn from
`self.actors`.  `chosen[0]` on an empty draw is an `IndexError`. -/
def choice {A : Type} (actors : List A) (chosen : List A) (size : Nat)
    (replace asList : Bool) : Except String (ChoiceResult A) :=
  if actors.length = 0 ∨ actors.length < sizeAndNotReplace size replace then
    Except.error "Trying to choose more actors than available."
  else if size = 1 ∧ asList = false then
    (chosen.head?).elim (Except.error "IndexError")
      (fun c => Except.ok (ChoiceResult.single c))
  else Except.ok (ChoiceResult.many chosen)

/-- `list(itertools.combinations(self.actors, 2))`: all pairs of an
earlier element with a later one, in iteration order. -/
def combinations2 {A : Type} : List A → List (A × A)
  | [] => []
  | a :: rest => (rest.map fun b => (a, b)) ++ combinations2 rest

/-- Modelled from the spec: `Actor.link_to(other, link=link, mutual=True)`
(from the missing `actor.py`) establishes the named link in both
directions; the link state is modelled as the list of
`(link name, source, target)` records. -/
def link_to {A : Type} (st : List (String × A × A)) (lk : String)
    (a b : A) : List (String × A × A) :=
  st ++ [(lk, a, b), (lk, b, a)]

/-- The loop of `ListRandom.link`: iterate over the combinations (each
iteration indexed to give it its own `np.random.random()` draw), link
mutually when `draw < p`, and collect the linked pairs in order. -/
def linkLoop {A : Type} (draws : Nat → ℚ) (p : ℚ) (lk : String) :
    List (Nat × (A × A)) → List (String × A × A) →
      List (String × A × A) × List (A × A)
  | [], st => (st, [])
  | (i, pr) :: rest, st =>
      if draws i < p then
        let res := linkLoop draws p lk rest (link_to st lk pr.1 pr.2)
        (res.1, pr :: res.2)
      else linkLoop draws p lk rest st

/-- `ListRandom.link(link, p)` over the current actors, starting from
link state `st`: returns the final link state and the returned
`linked_combs` list. -/
def link {A : Type} (draws : Nat → ℚ) (p : ℚ) (lk : String)
    (actors : List A) (st : List (String × A × A)) :
    List (String × A × A) × List (A × A) :=
  linkLoop draws p lk (combinations2 actors).enum st

/-! ### Helper lemmas about `combinations2` and `linkLoop` -/

theorem combinations2_length {A : Type} (l : List A) :
    2 * (combinations2 l).length = l.length * (l.length - 1) := by
  induction l with
  | nil => simp [combinations2]
  | cons a rest ih =>
      simp only [combinations2, List.length_append, List.length_map,
        List.length_cons]
      have hexp : (rest.length + 1) * (rest.length + 1 - 1) =
          rest.length * (rest.length - 1) + 2 * rest.length := by
        cases rest.length with
        | zero => simp
        | succ k =>
            simp only [Nat.add_sub_cancel]
            ring
      rw [hexp, ← ih]
      ring

theorem mem_combinations2_fst {A : Type} {l : List A} {x y : A}
    (h : (x, y) ∈ combinations2 l) : x ∈ l ∧ y ∈ l := by
  induction l with
  | nil => simp [combinations2] at h
  | cons a rest ih =>
      simp only [combinations2, List.mem_append, List.mem_map] at h
      rcases h with ⟨b, hb, hxy⟩ | h
      · obtain ⟨hx, hy⟩ := Prod.mk.injEq .. ▸ hxy
        subst hx
        subst hy
        exact ⟨List.mem_cons_self a rest, List.mem_cons_of_mem a hb⟩
      · obtain ⟨hx, hy⟩ := ih h
        exact ⟨List.mem_cons_of_mem a hx, List.mem_cons_of_mem a hy⟩

theorem combinations2_nodup {A : Type} {l : List A} (h : l.Nodup) :
    (combinations2 l).Nodup := by
  induction l with
  | nil => simp [combinations2]
  | cons a rest ih =>
      rw [List.nodup_cons] at h
      simp only [combinations2]
      refine List.Nodup.append ?_ (ih h.2) ?_
      · exact h.2.map (fun b c hbc => (Prod.mk.injEq .. ▸ hbc).2)
      · intro pr hpr1 hpr2
        obtain ⟨b, hb, hab⟩ := List.mem_map.mp hpr1
        obtain ⟨x, y⟩ := pr
        obtain ⟨hx, _⟩ := Prod.mk.injEq .. ▸ hab.symm
        have hxrest := (mem_combinations2_fst hpr2).1
        rw [← hx] at h
        exact h.1 hxrest

theorem combinations2_cover {A : Type} {l : List A} {a b : A}
    (ha : a ∈ l) (hb : b ∈ l) (hne : a ≠ b) :
    (a, b) ∈ combinations2 l ∨ (b, a) ∈ combinations2 l := by
  induction l with
  | nil => simp at ha
  | cons c rest ih =>
      rcases List.mem_cons.mp ha with hac | harest
      · left
        have hbrest : b ∈ rest := by
          rcases List.mem_cons.mp hb with hbc | hbr
          · exact absurd (hac.trans hbc.symm) hne
          · exact hbr
        simp only [combinations2, List.mem_append, List.mem_map]
        exact Or.inl ⟨b, hbrest, by rw [hac]⟩
      · rcases List.mem_cons.mp hb with hbc | hbrest
        · right
          simp only [combinations2, List.mem_append, List.mem_map]
          exact Or.inl ⟨a, harest, by rw [hbc]⟩
        · rcases ih harest hbrest with hcase | hcase
          · left
            simp only [combinations2, List.mem_append]
            exact Or.inr hcase
          · right
            simp only [combinations2, List.mem_append]
            exact Or.inr hcase

theorem linkLoop_state_mono {A : Type} (draws : Nat → ℚ) (p : ℚ)
    (lk : String) (L : List (Nat × (A × A))) (st : List (String × A × A))
    (r : String × A × A) (hr : r ∈ st) : r ∈ (linkLoop draws p lk L st).1 := by
  induction L generalizing st with
  | nil => simpa [linkLoop] using hr
  | cons hd rest ih =>
      obtain ⟨i, pr⟩ := hd
      rw [linkLoop]
      by_cases hd : draws i < p
      · rw [if_pos hd]
        exact ih (link_to st lk pr.1 pr.2) (by simp [link_to, hr])
      · rw [if_neg hd]
        exact ih st hr

theorem linkLoop_all_linked {A : Type} (draws : Nat → ℚ) (p : ℚ)
    (lk : String) (L : List (Nat × (A × A))) (st : List (String × A × A))
    (hall : ∀ i pr, (i, pr) ∈ L → draws i < p) :
    (linkLoop draws p lk L st).2 = L.map Prod.snd ∧
    ∀ pr : A × A, pr ∈ L.map Prod.snd →
      (lk, pr.1, pr.2) ∈ (linkLoop draws p lk L st).1 ∧
      (lk, pr.2, pr.1) ∈ (linkLoop draws p lk L st).1 := by
  induction L generalizing st with
  | nil => simp [linkLoop]
  | cons hd rest ih =>
      obtain ⟨i, pr⟩ := hd
      have hdlt : draws i < p := hall i pr (List.mem_cons_self _ _)
      have hrest : ∀ j qr, (j, qr) ∈ rest → draws j < p := fun j qr hj =>
        hall j qr (List.mem_cons_of_mem _ hj)
      obtain ⟨ih1, ih2⟩ := ih (link_to st lk pr.1 pr.2) hrest
      constructor
      · rw [linkLoop, if_pos hdlt]
        simpa using ih1
      · intro qr hqr
        rw [List.map_cons] at hqr
        rw [linkLoop, if_pos hdlt]
        rcases List.mem_cons.mp hqr with hq | hq
        · subst hq
          constructor
          · exact linkLoop_state_mono draws p lk rest _ _ (by simp [link_to])
          · exact linkLoop_state_mono draws p lk rest _ _ (by simp [link_to])
        · exact ih2 qr hq

theorem linkLoop_sublist {A : Type} (draws : Nat → ℚ) (p : ℚ)
    (lk : String) (L : List (Nat × (A × A))) (st : List (String × A × A)) :
    ((linkLoop draws p lk L st).2).Sublist (L.map Prod.snd) := by
  induction L generalizing st with
  | nil => simp [linkLoop]
  | cons hd rest ih =>
      obtain ⟨i, pr⟩ := hd
      rw [linkLoop]
      by_cases hd : draws i < p
      · rw [if_pos hd]
        exact (ih (link_to st lk pr.1 pr.2)).cons₂ pr
      · rw [if_neg hd]
        exact (ih st).cons pr

/-! ## Theorems: C7 and C9 -/

/-- C7. `choice` error behaviour: with an empty actors list it raises
`ABSESpyError` for every argument combination; with a nonempty list and
`replace=False` it raises exactly when `size` exceeds the number of
actors, and otherwise returns the `size` drawn actors — a single actor
when `size=1` and `as_list=False`, an actors list otherwise. -/
theorem C7_choice_errors {A : Type} (actors chosen : List A) (size : Nat)
    (replace asList : Bool) (hlen : chosen.length = size) :
    (actors.length = 0 →
      choice actors chosen size replace asList =
        Except.error "Trying to choose more actors than available.") ∧
    (actors.length ≠ 0 → replace = false →
      (actors.length < size →
        choice actors chosen size replace asList =
          Except.error "Trying to choose more actors than available.") ∧
      (size ≤ actors.length →
        (size = 1 ∧ asList = false →
          ∃ a, chosen = [a] ∧
            choice actors chosen size replace asList =
              Except.ok (ChoiceResult.single a)) ∧
        (¬(size = 1 ∧ asList = false) →
          choice actors chosen size replace asList =
            Except.ok (ChoiceResult.many chosen) ∧ chosen.length = size))) := by
  constructor
  · intro h0
    rw [choice, if_pos (Or.inl h0)]
  · intro hne hrep
    constructor
    · intro hlt
      rw [choice, if_pos (Or.inr (by simpa [sizeAndNotReplace, hrep] using hlt))]
    · intro hle
      have hguard : ¬(actors.length = 0 ∨
          actors.length < sizeAndNotReplace size replace) := by
        rw [hrep]
        simp only [sizeAndNotReplace, if_false]
        push_neg
        exact ⟨hne, hle⟩
      constructor
      · rintro ⟨h1, hlist⟩
        have hchosen : ∃ a, chosen = [a] := by
          rw [h1] at hlen
          cases chosen with
          | nil => simp at hlen
          | cons c tl =>
              refine ⟨c, ?_⟩
              simp only [List.length_cons] at hlen
              have : tl = [] := List.length_eq_zero.mp (by omega)
              rw [this]
        obtain ⟨a, ha⟩ := hchosen
        refine ⟨a, ha, ?_⟩
        rw [choice, if_neg hguard, if_pos ⟨h1, hlist⟩, ha]
        rfl
      · intro hnot
        refine ⟨?_, hlen⟩
        rw [choice, if_neg hguard, if_neg hnot]

/-- Closed instance of C7: an empty list always raises; choosing 2 of 3
without replacement succeeds with an actors list. -/
theorem C7_choice_errors_witness :
    choice ([] : List Nat) [7] 1 false false =
        Except.error "Trying to choose more actors than available." ∧
      choice [10, 20, 30] [30, 10] 2 false false =
        Except.ok (ChoiceResult.many [30, 10]) := by
  constructor
  · exact (C7_choice_errors [] [7] 1 false false rfl).1 rfl
  · exact ((C7_choice_errors [10, 20, 30] [30, 10] 2 false false rfl).2
      (by decide) rfl).2 (by decide) |>.2 (by decide) |>.1

/-- C9. `link(link, p=1.0)` mutually links every unordered pair of
distinct actors and returns exactly the combinations list — each of the
`n*(n-1)/2` pairs once, in combinations order (`np.random.random()`
draws lie in `[0, 1)`, hence are always `< 1.0`); for every `p` the
returned pairs form a subsequence of the combinations. -/
theorem C9_link_probability_one {A : Type} (draws : Nat → ℚ)
    (actors : List A) (lk : String) (st : List (String × A × A))
    (hdraw : ∀ i, 0 ≤ draws i ∧ draws i < 1) (hnd : actors.Nodup) :
    (link draws 1 lk actors st).2 = combinations2 actors ∧
    (combinations2 actors).length =
      actors.length * (actors.length - 1) / 2 ∧
    (combinations2 actors).Nodup ∧
    (∀ a b, a ∈ actors → b ∈ actors → a ≠ b →
      (lk, a, b) ∈ (link draws 1 lk actors st).1 ∧
      (lk, b, a) ∈ (link draws 1 lk actors st).1) ∧
    (∀ p : ℚ, ((link draws p lk actors st).2).Sublist (combinations2 actors)) := by
  have hall : ∀ i pr, (i, pr) ∈ (combinations2 actors).enum →
      draws i < (1 : ℚ) := fun i pr _ => (hdraw i).2
  obtain ⟨hlist, hrecs⟩ :=
    linkLoop_all_linked draws 1 lk (combinations2 actors).enum st hall
  have henum : ((combinations2 actors).enum).map Prod.snd =
      combinations2 actors := List.enum_map_snd _
  refine ⟨?_, ?_, combinations2_nodup hnd, ?_, ?_⟩
  · rw [link, hlist, henum]
  · have h2 := combinations2_length actors
    omega
  · intro a b ha hb hne
    rcases combinations2_cover ha hb hne with hmem | hmem
    · have := hrecs (a, b) (by rw [henum]; exact hmem)
      exact ⟨this.1, this.2⟩
    · have := hrecs (b, a) (by rw [henum]; exact hmem)
      exact ⟨this.2, this.1⟩
  · intro p
    rw [link]
    have := linkLoop_sublist draws p lk (combinations2 actors).enum st
    rwa [henum] at this

/-- Closed instance of C9 over three actors with draws `1/2`. -/
theorem C9_link_probability_one_witness :
    (link (fun _ => (1 : ℚ) / 2) 1 "friend" [10, 20, 30] []).2 =
        combinations2 [10, 20, 30] ∧
      (combinations2 [10, 20, 30]).length = 3 * (3 - 1) / 2 ∧
      ("friend", 10, 30) ∈ (link (fun _ => (1 : ℚ) / 2) 1 "friend" [10, 20, 30] []).1 := by
  have h := C9_link_probability_one (fun _ => (1 : ℚ) / 2) [10, 20, 30]
    "friend" [] (fun _ => by norm_num) (by decide)
  refine ⟨h.1, ?_, ?_⟩
  · have := h.2.1
    simpa using this
  · exact (h.2.2.2.1 10 30 (by decide) (by decide) (by decide)).1

end ABSES
